import Mathlib

/-!
Shallow embedding of the CSV/JSON-Schema validation pipeline of the SWatCh
repository (`schema/validate_csv.py`), together with theorems settling the
specification's claims about it.

Python queues are modelled as lists of their currently buffered items
(front = next item returned by `get`); draining a queue is explicit state
passing that returns the consumed items and the remaining (empty) buffer.
Python `int` is modelled as `Int` where sign matters, `Nat` where the
source only ever holds non-negative counts.
-/

namespace ValidateCsv

/-! ### JSON values and the schema data model

A record is one CSV data row converted to a JSON object: an ordered
association list from column name to scalar value (string, number, null).
-/

/-- A JSON scalar value as produced by `df.to_json(orient="records")`. -/
inductive JVal where
  | s (v : String)
  | n (v : Int)
  | null
deriving DecidableEq, Repr

/-- Declared column type: the `"string"` / `"number"` values of the
`dtype_map` dispatch table in `validate_csv.py`. -/
inductive JType where
  | string
  | number
deriving DecidableEq, Repr

/-- Per-column sub-schema: the constraint keywords used by the repository's
schemas (type, enum, length bounds for strings, inclusive numeric bounds). -/
structure ColSchema where
  jtype : JType
  enumVals : Option (List JVal) := none
  minLength : Option Nat := none
  maxLength : Option Nat := none
  minimum : Option Int := none
  maximum : Option Int := none
deriving DecidableEq, Repr

/-- A JSON Schema document as used by the pipeline: a `properties` mapping,
a `required` list and a `dependencies` mapping. -/
structure JSchema where
  properties : List (String × ColSchema)
  required : List String := []
  dependencies : List (String × List String) := []
deriving DecidableEq, Repr

/-- A record: one CSV data row in JSON-object form. -/
abbrev JRecord := List (String × JVal)

/-- One validation error as raised by the jsonschema library: the name of
the failed validator keyword and its message. -/
structure VErr where
  validator : String
  message : String
deriving DecidableEq, Repr

/-- Constraint violations of a single value against one column's
sub-schema, in keyword order. -/
def colErrors (name : String) (cs : ColSchema) (v : JVal) : List VErr :=
  let typeErr : List VErr :=
    match cs.jtype, v with
    | JType.string, JVal.s _ => []
    | JType.number, JVal.n _ => []
    | _, _ => [⟨"type", name ++ " has wrong type"⟩]
  let enumErr : List VErr :=
    match cs.enumVals with
    | some vs => if v ∈ vs then [] else [⟨"enum", name ++ " is not one of the enum values"⟩]
    | none => []
  let minLenErr : List VErr :=
    match cs.minLength, v with
    | some k, JVal.s str => if str.length < k then [⟨"minLength", name ++ " is too short"⟩] else []
    | _, _ => []
  let maxLenErr : List VErr :=
    match cs.maxLength, v with
    | some k, JVal.s str => if k < str.length then [⟨"maxLength", name ++ " is too long"⟩] else []
    | _, _ => []
  let minErr : List VErr :=
    match cs.minimum, v with
    | some m, JVal.n q => if q < m then [⟨"minimum", name ++ " is below the minimum"⟩] else []
    | _, _ => []
  let maxErr : List VErr :=
    match cs.maximum, v with
    | some m, JVal.n q => if m < q then [⟨"maximum", name ++ " is above the maximum"⟩] else []
    | _, _ => []
  typeErr ++ enumErr ++ minLenErr ++ maxLenErr ++ minErr ++ maxErr

/-- All constraint violations of a record against a schema, in a fixed
deterministic order: `required`, then `dependencies`, then per-property
keyword checks in schema order.  This models the jsonschema library's
`iter_errors` for the keyword subset the repository uses. -/
def iter_errors (record : JRecord) (schema : JSchema) : List VErr :=
  let requiredErrs : List VErr :=
    schema.required.filterMap fun k =>
      if (record.lookup k).isSome then none
      else some ⟨"required", k ++ " is a required property"⟩
  let depErrs : List VErr :=
    schema.dependencies.flatMap fun kd =>
      if (record.lookup kd.1).isSome then
        kd.2.filterMap fun d =>
          if (record.lookup d).isSome then none
          else some ⟨"dependencies", d ++ " is a dependency of " ++ kd.1⟩
      else []
  let propErrs : List VErr :=
    schema.properties.flatMap fun p =>
      match record.lookup p.1 with
      | some v => colErrors p.1 p.2 v
      | none => []
  requiredErrs ++ depErrs ++ propErrs

/-- Model of the external jsonschema library's `validate(instance, schema)`:
it raises a single `ValidationError` — the first violation — even when the
instance violates several constraints; it returns normally (`none`) when
there is no violation. -/
def jsonschemaValidate (record : JRecord) (schema : JSchema) : Option VErr :=
  (iter_errors record schema).head?

/-! ### The validation worker (`worker`, `validation_error_report`) -/

/-- A validation error report: the absolute row number and the error the
report was generated from (the Python code renders exactly these fields
into a string). -/
structure ValidationReport where
  row : Nat
  error : VErr
deriving DecidableEq, Repr

/-- `validation_error_report(e, row)`: builds the report from the
validation error and the file-relative row at which it occurred. -/
def validation_error_report (e : VErr) (row : Nat) : ValidationReport :=
  ⟨row, e⟩

/-- The worker's per-record null stripping:
`record = {k: v for k, v in record.items() if v is not None}`. -/
def dropNullValues (record : JRecord) : JRecord :=
  record.filter fun kv => kv.2 ≠ JVal.null

/-- The worker's per-record loop body, accumulated over a record list:
each record has its null values dropped, is validated (the library raises
at most one error per record, which the worker catches), and each caught
error becomes one report at absolute row `start_row + relative_row`. -/
def validateRecords (schema : JSchema) (start_row : Nat) :
    List JRecord → Nat → List ValidationReport
  | [], _ => []
  | r :: rest, relative_row =>
    match jsonschemaValidate (dropNullValues r) schema with
    | some e =>
      validation_error_report e (start_row + relative_row) ::
        validateRecords schema start_row rest (relative_row + 1)
    | none => validateRecords schema start_row rest (relative_row + 1)

/-- `worker(records, schema, start_row, validation_error_queue,
row_progress_queue)`: validates a chunk of records, appending every caught
report to the shared validation-error queue, pushing one `1` onto its
progress queue per record processed, and returning
`(len(records), reports)` together with the final queue states. -/
def worker (records : List JRecord) (schema : JSchema) (start_row : Nat)
    (validation_error_queue : List ValidationReport) (row_progress_queue : List Int) :
    (Nat × List ValidationReport) × List ValidationReport × List Int :=
  let reports := validateRecords schema start_row records 0
  ((records.length, reports),
    validation_error_queue ++ reports,
    row_progress_queue ++ List.replicate records.length 1)

/-! ### Failure reporting (`get_validation_reports`, `print_validation_reports`) -/

/-- `get_validation_reports(report_queue)`: drains the queue with
non-blocking `get(False)` until `queue.Empty`, returning the consumed
reports in order and the (empty) remaining buffer. -/
def get_validation_reports {α : Type} : List α → List α × List α
  | [] => ([], [])
  | r :: rest =>
    let d := get_validation_reports rest
    (r :: d.1, d.2)

/-- Python's `l[:k]` for an integer bound `k`: a non-negative bound takes
the first `k` elements (clamped to the length); a negative bound drops the
last `|k|` elements. -/
def pySliceTo {α : Type} (l : List α) (k : Int) : List α :=
  if 0 ≤ k then l.take k.toNat else l.take (l.length - (-k).toNat)

/-- `print_validation_reports(validation_error_queue, printed_reports,
report_quota)`: drains all buffered reports, prints at most
`report_quota - printed_reports` of them (`reports[:max_reports]`), and
returns `report_num` — the number of reports drained.  The result is the
list of reports actually printed together with that return value. -/
def print_validation_reports {α : Type} (validation_error_queue : List α)
    (printed_reports report_quota : Int) : List α × Int :=
  let max_reports := report_quota - printed_reports
  let reports := (get_validation_reports validation_error_queue).1
  let report_num : Int := reports.length
  let printed := if report_num > max_reports then pySliceTo reports max_reports else reports
  (printed, report_num)

/-! ### Progress aggregation (`get_row_progress_update`) -/

/-- `get_row_progress_update(progress_queue)`: drains the queue with
non-blocking `get(False)` until `queue.Empty`, summing the integer updates;
returns the total and the (empty) remaining buffer.  The function is total:
an empty queue yields `0` immediately, nothing blocks and nothing is
raised. -/
def get_row_progress_update : List Int → Int × List Int
  | [] => (0, [])
  | u :: rest =>
    let r := get_row_progress_update rest
    (u + r.1, r.2)

/-! ### The dispatcher (`dispatch_workers`) -/

/-- The start-row bookkeeping of `dispatch_workers`: it walks the record
chunks keeping `file_relative_chunk_start_row`, which starts at the global
`start_row` and advances by `len(chunk)` after each dispatch; the result is
the absolute start row handed to each worker, in dispatch order. -/
def dispatch_workers {α : Type} (start_row : Nat) : List (List α) → List Nat
  | [] => []
  | chunk :: rest => start_row :: dispatch_workers (start_row + chunk.length) rest

/-! ### The chunker

`chunk_records` itself is absent from `validate_csv.py` in the current
tree; only its unit test (`test_chunk_records` in `test_validate_csv.py`)
and the streaming chunker remain.  `chunkList` is the shared splitting
primitive: successive groups of `size` records, the last clipped to the
true end. -/

def chunkListGo {α : Type} (size : Nat) : Nat → List α → List (List α)
  | _, [] => []
  | 0, l => [l]
  | fuel + 1, l =>
    if size = 0 then [l]
    else l.take size :: chunkListGo size fuel (l.drop size)

/-- Split a list into successive pieces of `size` elements; the final piece
is clipped to whatever remains.  The fuel argument of `chunkListGo` is the
list length, which always suffices for a positive `size`; a `size` of `0`
on a non-empty list returns the whole list as one piece (never reached by
the callers below, whose sizes are at least 1). -/
def chunkList {α : Type} (size : Nat) (l : List α) : List (List α) :=
  chunkListGo size l.length l

/-- Attach 1-indexed absolute start and end offsets to a chunk list:
chunk `c` starting at `s` occupies rows `s` to `s + len(c)`. -/
def addOffsets {α : Type} : List (List α) → Nat → List (List α × Nat × Nat)
  | [], _ => []
  | c :: rest, s => (c, s, s + c.length) :: addOffsets rest (s + c.length)

/-- Modelled from the spec: `chunk_records(records, n)` — the fixed
chunk-count mode of the Chunker, absent from the current `validate_csv.py`
(only its unit test remains).  Divides `N` records into chunks of
`chunk_size = ceil(N / n)` records each, the last clipped to the true end,
yielding `(chunk, start, end)` triples with 1-indexed absolute offsets. -/
def chunk_records {α : Type} (records : List α) (n : Nat) : List (List α × Nat × Nat) :=
  addOffsets (chunkList ((records.length + n - 1) / n) records) 1

/-! ### Chunk-size computation in `main` -/

/-- `maximum_chunk_size(rows, processes)`: `int(rows / processes)`, i.e.
floor division for the non-negative counts involved. -/
def maximum_chunk_size (rows processes : Nat) : Nat :=
  rows / processes

/-- A Python runtime error relevant to the driver. -/
inductive PyError where
  | typeError
deriving DecidableEq, Repr

/-- Python's `min(a, b)` where `b` may be `None`: comparing an `int` with
`None` raises `TypeError`. -/
def pyMinIntOpt (a : Nat) : Option Nat → Except PyError Nat
  | some b => Except.ok (min a b)
  | none => Except.error PyError.typeError

/-- The chunk-size computation at the top of `main`:
`chunk_size = min(maximum_chunk_size(csv_rows, processes), args.chunk_size)`,
where `args.chunk_size` is `None` when the optional `--chunk-size` flag is
omitted. -/
def main_chunk_size (csv_rows processes : Nat) (chunk_size_arg : Option Nat) :
    Except PyError Nat :=
  pyMinIntOpt (maximum_chunk_size csv_rows processes) chunk_size_arg

/-! ### The record loader (`records_chunk_loader`) -/

/-- The `skiprows` callable handed to `pandas.read_csv` after `main`'s
`start_row -= 1`: line `x` (0-indexed, line 0 the header) is skipped iff
`x != 0 and x < start_row` with the decremented value. -/
def pandas_skiprows (start_row0 : Int) (x : Nat) : Bool :=
  decide (x ≠ 0) && decide ((x : Int) < start_row0)

/-- Streaming read of the data lines: line indices count from `lineIdx`
(the header is line 0, so data lines start at 1); a line is kept iff
`pandas_skiprows` rejects it. -/
def loaderKeep {α : Type} (start_row0 : Int) (lineIdx : Nat) : List α → List α
  | [] => []
  | r :: rest =>
    if pandas_skiprows start_row0 lineIdx then loaderKeep start_row0 (lineIdx + 1) rest
    else r :: loaderKeep start_row0 (lineIdx + 1) rest

/-- `records_chunk_loader(csv_path, start_row, schema, chunk_size)`: the
rows of the CSV file at or after the requested start (the header, line 0,
is always consumed by pandas for column names and typing and never yielded
as a record), grouped into chunks of `chunk_size` rows.  `start_row` is
decremented once (`start_row -= 1`) before building the skip predicate. -/
def records_chunk_loader {α : Type} (start_row : Int) (dataRows : List α)
    (chunk_size : Nat) : List (List α) :=
  chunkList chunk_size (loaderKeep (start_row - 1) 1 dataRows)

/-! ### The driver's poll loop (`main`, lines 80-93) -/

/-- How a run of the driver ended: the fall-through after the poll loop
(process exit status 0) or the `sys.exit(1)` on the max-failures path. -/
inductive RunExit where
  | completed
  | maxFailsExit
deriving DecidableEq, Repr

/-- The driver's poll loop.  Each trace element records one arrival at the
`while not are_results_ready(results)` check: whether all worker results
were ready at that moment, and the reports then buffered on the validation
error queue.  When not ready, the loop body first exits with status 1 if
`total_fails > max_fails`, otherwise drains the queue through
`print_validation_reports` and adds its return value to `total_fails`.
`none` means the trace ended with the loop still running. -/
def driverPoll {α : Type} (max_fails : Int) :
    Int → List (Bool × List α) → Option RunExit
  | _, [] => none
  | total_fails, (ready, q) :: rest =>
    if ready then some RunExit.completed
    else if total_fails > max_fails then some RunExit.maxFailsExit
    else
      driverPoll max_fails
        (total_fails + (print_validation_reports q total_fails max_fails).2) rest

/-- A trace on which the poll loop takes the max-failures exit: some check
finds the results not ready while the accumulated failure count already
exceeds `max_fails`; earlier non-ready checks accumulate the drained
counts. -/
inductive ExceedsBeforeReady {α : Type} (max_fails : Int) :
    Int → List (Bool × List α) → Prop where
  | here {t : Int} {q : List α} {rest : List (Bool × List α)} :
      t > max_fails → ExceedsBeforeReady max_fails t ((false, q) :: rest)
  | later {t : Int} {q : List α} {rest : List (Bool × List α)} :
      ¬ t > max_fails →
      ExceedsBeforeReady max_fails
        (t + (print_validation_reports q t max_fails).2) rest →
      ExceedsBeforeReady max_fails t ((false, q) :: rest)

/-- One iteration of the failure accounting in `main`'s poll loop:
`fails = print_validation_reports(...); total_fails += fails`. -/
def pollIterationFails {α : Type} (total_fails : Int) (q : List α) (max_fails : Int) : Int :=
  total_fails + (print_validation_reports q total_fails max_fails).2

/-! ### Helper lemmas -/

theorem get_validation_reports_eq {α : Type} (q : List α) :
    get_validation_reports q = (q, []) := by
  induction q with
  | nil => rfl
  | cons r rest ih => simp [get_validation_reports, ih]

theorem print_validation_reports_snd {α : Type} (q : List α) (p m : Int) :
    (print_validation_reports q p m).2 = (q.length : Int) := by
  simp [print_validation_reports, get_validation_reports_eq]

theorem pySliceTo_length_le {α : Type} (l : List α) (k : Int) (hk : 0 ≤ k) :
    ((pySliceTo l k).length : Int) ≤ k := by
  simp only [pySliceTo, if_pos hk, List.length_take]
  calc ((min k.toNat l.length : Nat) : Int) ≤ (k.toNat : Int) := by
        exact_mod_cast Nat.min_le_left _ _
    _ = k := Int.toNat_of_nonneg hk

theorem print_validation_reports_printed_le {α : Type} (q : List α) (p m : Int)
    (h : 0 ≤ m - p) :
    (((print_validation_reports q p m).1.length : Int)) ≤ m - p := by
  simp only [print_validation_reports, get_validation_reports_eq]
  by_cases hq : ((q.length : Int) > m - p)
  · simp only [if_pos hq]
    exact pySliceTo_length_le q (m - p) h
  · simp only [if_neg hq]
    exact le_of_not_lt hq

theorem get_row_progress_update_eq (q : List Int) :
    get_row_progress_update q = (q.sum, []) := by
  induction q with
  | nil => rfl
  | cons u rest ih => simp [get_row_progress_update, ih]

theorem dispatch_workers_length {α : Type} (start : Nat) (chunks : List (List α)) :
    (dispatch_workers start chunks).length = chunks.length := by
  induction chunks generalizing start with
  | nil => rfl
  | cons c rest ih => simp [dispatch_workers, ih]

theorem dispatch_workers_get {α : Type} (start : Nat) (chunks : List (List α))
    (i : Nat) (h : i < (dispatch_workers start chunks).length) :
    (dispatch_workers start chunks).get ⟨i, h⟩
      = start + ((chunks.take i).map List.length).sum := by
  induction chunks generalizing start i with
  | nil => simp [dispatch_workers] at h
  | cons c rest ih =>
    cases i with
    | zero => simp [dispatch_workers]
    | succ j =>
      have h' : j < (dispatch_workers (start + c.length) rest).length := by
        simpa [dispatch_workers] using h
      have := ih (start + c.length) j h'
      simp only [dispatch_workers, List.get_cons_succ, List.take_succ_cons,
        List.map_cons, List.sum_cons, this]
      omega

theorem validateRecords_length (schema : JSchema) (s : Nat)
    (records : List JRecord) (rel : Nat) :
    (validateRecords schema s records rel).length
      = (records.filter
          (fun r => (jsonschemaValidate (dropNullValues r) schema).isSome)).length := by
  induction records generalizing rel with
  | nil => rfl
  | cons r rest ih =>
    cases hv : jsonschemaValidate (dropNullValues r) schema with
    | none => simp [validateRecords, hv, List.filter, ih]
    | some e => simp [validateRecords, hv, List.filter, ih]

theorem chunkListGo_flatten {α : Type} (size : Nat) :
    ∀ (fuel : Nat) (l : List α), l.length ≤ fuel →
      (chunkListGo size fuel l).flatten = l := by
  intro fuel
  induction fuel with
  | zero =>
    intro l hl
    have hnil : l = [] := List.length_eq_zero.mp (Nat.le_zero.mp hl)
    subst hnil
    rfl
  | succ n ih =>
    intro l hl
    cases l with
    | nil => rfl
    | cons x xs =>
      by_cases hs : size = 0
      · simp [chunkListGo, hs]
      · have hrec : (List.drop size (x :: xs)).length ≤ n := by
          simp only [List.length_drop, List.length_cons]
          have : 1 ≤ size := Nat.one_le_iff_ne_zero.mpr hs
          simp only [List.length_cons] at hl
          omega
        simp only [chunkListGo, if_neg hs, List.flatten_cons, ih _ hrec]
        exact List.take_append_drop size (x :: xs)

theorem chunkList_flatten {α : Type} (size : Nat) (l : List α) :
    (chunkList size l).flatten = l :=
  chunkListGo_flatten size l.length l le_rfl

theorem chunkListGo_eq_nil_iff {α : Type} (size fuel : Nat) (l : List α) :
    chunkListGo size fuel l = [] ↔ l = [] := by
  cases l with
  | nil => cases fuel <;> simp [chunkListGo]
  | cons x xs =>
    cases fuel with
    | zero => simp [chunkListGo]
    | succ n =>
      by_cases hs : size = 0
      · simp [chunkListGo, hs]
      · simp [chunkListGo, hs]

theorem chunkListGo_get_length {α : Type} (size : Nat) :
    ∀ (fuel : Nat) (l : List α), l.length ≤ fuel →
      ∀ (i : Nat) (h' : i < (chunkListGo size fuel l).length),
        i + 1 < (chunkListGo size fuel l).length →
        ((chunkListGo size fuel l).get ⟨i, h'⟩).length = size := by
  intro fuel
  induction fuel with
  | zero =>
    intro l hl i h' h
    have hnil : l = [] := List.length_eq_zero.mp (Nat.le_zero.mp hl)
    subst hnil
    simp [chunkListGo] at h'
  | succ n ih =>
    intro l hl i h' h
    cases l with
    | nil => simp [chunkListGo] at h'
    | cons x xs =>
      by_cases hs : size = 0
      · rw [show chunkListGo size (n + 1) (x :: xs) = [x :: xs] by simp [chunkListGo, hs]] at h
        simp at h
      · have hrw : chunkListGo size (n + 1) (x :: xs)
            = (x :: xs).take size :: chunkListGo size n ((x :: xs).drop size) := by
          simp [chunkListGo, hs]
        have hrec : ((x :: xs).drop size).length ≤ n := by
          simp only [List.length_drop, List.length_cons]
          have : 1 ≤ size := Nat.one_le_iff_ne_zero.mpr hs
          simp only [List.length_cons] at hl
          omega
        cases i with
        | zero =>
          have hne : chunkListGo size n ((x :: xs).drop size) ≠ [] := by
            intro hnil
            rw [hrw, hnil] at h
            simp at h
          have hdrop : (x :: xs).drop size ≠ [] := fun hnil =>
            hne ((chunkListGo_eq_nil_iff size n _).mpr hnil)
          have hlt : size < (x :: xs).length := List.length_lt_of_drop_ne_nil hdrop
          rw [List.get_of_eq hrw]
          simp only [List.length_cons] at hlt
          simp [List.length_take]
          omega
        | succ j =>
          have hj : j + 1 < (chunkListGo size n ((x :: xs).drop size)).length := by
            rw [hrw] at h
            simpa using h
          have hj' : j < (chunkListGo size n ((x :: xs).drop size)).length :=
            Nat.lt_of_succ_lt hj
          have := ih _ hrec j hj' hj
          rw [List.get_of_eq hrw]
          simpa using this

theorem chunkList_get_length {α : Type} (size : Nat) (l : List α) (i : Nat)
    (h' : i < (chunkList size l).length) (h : i + 1 < (chunkList size l).length) :
    ((chunkList size l).get ⟨i, h'⟩).length = size :=
  chunkListGo_get_length size l.length l le_rfl i h' h

theorem chunkList_eq_nil_iff {α : Type} (size : Nat) (l : List α) :
    chunkList size l = [] ↔ l = [] :=
  chunkListGo_eq_nil_iff size l.length l

theorem addOffsets_map_fst {α : Type} (cs : List (List α)) (s : Nat) :
    (addOffsets cs s).map (fun c => c.1) = cs := by
  induction cs generalizing s with
  | nil => rfl
  | cons c rest ih => simp [addOffsets, ih]

theorem addOffsets_length {α : Type} (cs : List (List α)) (s : Nat) :
    (addOffsets cs s).length = cs.length := by
  induction cs generalizing s with
  | nil => rfl
  | cons c rest ih => simp [addOffsets, ih]

theorem chunk_records_map_fst {α : Type} (records : List α) (n : Nat) :
    (chunk_records records n).map (fun c => c.1)
      = chunkList ((records.length + n - 1) / n) records := by
  rw [chunk_records, addOffsets_map_fst]

theorem loaderKeep_eq_drop {α : Type} (s0 : Int) (l : List α) :
    ∀ (j : Nat), 1 ≤ j → loaderKeep s0 j l = l.drop (s0 - j).toNat := by
  induction l with
  | nil => intro j hj; simp [loaderKeep]
  | cons r rest ih =>
    intro j hj
    by_cases hskip : pandas_skiprows s0 j = true
    · have hjlt : (j : Int) < s0 := by
        simp only [pandas_skiprows, Bool.and_eq_true, decide_eq_true_eq] at hskip
        exact hskip.2
      rw [loaderKeep, if_pos hskip, ih (j + 1) (by omega)]
      have hsucc : (s0 - j).toNat = ((s0 - (j + 1)).toNat) + 1 := by omega
      rw [hsucc]
      rfl
    · have hge : ¬ ((j : Int) < s0) := by
        intro hlt
        exact hskip (by simp [pandas_skiprows, hlt]; omega)
      rw [loaderKeep, if_neg hskip, ih (j + 1) (by omega)]
      have h0 : (s0 - j).toNat = 0 := by omega
      have h1 : (s0 - (j + 1)).toNat = 0 := by omega
      simp [h0, h1]

theorem driverPoll_maxFailsExit_iff {α : Type} (max_fails : Int)
    (trace : List (Bool × List α)) :
    ∀ (t : Int),
      driverPoll max_fails t trace = some RunExit.maxFailsExit
        ↔ ExceedsBeforeReady max_fails t trace := by
  induction trace with
  | nil =>
    intro t
    constructor
    · intro h; simp [driverPoll] at h
    · intro h; cases h
  | cons p rest ih =>
    intro t
    obtain ⟨ready, q⟩ := p
    cases ready with
    | true =>
      constructor
      · intro h; simp [driverPoll] at h
      · intro h; cases h
    | false =>
      by_cases ht : t > max_fails
      · constructor
        · intro _; exact ExceedsBeforeReady.here ht
        · intro _; simp [driverPoll, ht]
      · constructor
        · intro h
          simp only [driverPoll] at h
          rw [if_neg (by simp), if_neg ht] at h
          exact ExceedsBeforeReady.later ht ((ih _).mp h)
        · intro h
          cases h with
          | here hgt => exact absurd hgt ht
          | later hnot hrest =>
            simp only [driverPoll]
            rw [if_neg (by simp), if_neg ht]
            exact (ih _).mpr hrest

theorem addOffsets_get_fst {α : Type} (cs : List (List α)) (s : Nat) (i : Nat)
    (h : i < (addOffsets cs s).length) (h2 : i < cs.length) :
    ((addOffsets cs s).get ⟨i, h⟩).1 = cs.get ⟨i, h2⟩ := by
  induction cs generalizing s i with
  | nil => simp at h2
  | cons c rest ih =>
    cases i with
    | zero => simp [addOffsets]
    | succ j =>
      have hj : j < (addOffsets rest (s + c.length)).length := by
        simpa [addOffsets] using h
      have hj2 : j < rest.length := by simpa using h2
      simpa [addOffsets] using ih (s + c.length) j hj hj2

/-! ### The claims -/

/-- Claim C1, counterexample: `print_validation_reports` called with two
buffered reports, zero already printed and a quota of one returns `2`,
which exceeds `quota - already_printed = 1`; the claim that the return
value never exceeds `quota - already_printed` is false — the return value
is the drained count, not the printed count. -/
theorem claim_C1_counterexample :
    (print_validation_reports ["a", "b"] 0 1).2 = 2
    ∧ ¬ (print_validation_reports ["a", "b"] 0 1).2 ≤ 1 - (0 : Int) := by
  refine ⟨?_, ?_⟩ <;> decide

/-- Claim C1 (amended): for every call to `print_validation_reports` with
`already_printed ≤ quota`, the number of reports it PRINTS never exceeds
`quota - already_printed`, regardless of how many reports are buffered on
the failure channel (its return value, by contrast, is the drained
count). -/
theorem claim_C1 {α : Type} (failure_queue : List α) (already_printed quota : Int)
    (h : 0 ≤ quota - already_printed) :
    ((print_validation_reports failure_queue already_printed quota).1.length : Int)
      ≤ quota - already_printed :=
  print_validation_reports_printed_le failure_queue already_printed quota h

/-- Claim C1 witness: with three buffered reports, zero printed and quota
one, at most one report is printed. -/
theorem claim_C1_witness :
    ((0 : Int) ≤ 1 - 0)
    ∧ ((print_validation_reports ["a", "b", "c"] 0 1).1.length : Int) ≤ 1 - 0 :=
  ⟨by decide, claim_C1 ["a", "b", "c"] 0 1 (by decide)⟩

/-- Claim C2, counterexample: with `max_fails = 1`, a poll that drains five
failure reports followed by a poll that finds all results ready makes the
loop exit through the completion path (process exit status 0), even though
the failure count (5) exceeds `max_fails`: the readiness condition of the
`while` loop is checked before the failure-count check, so a run whose
failures exceed the quota only as the workers finish does not exit
non-zero. -/
theorem claim_C2_counterexample :
    driverPoll 1 0 [(false, ["a", "b", "c", "d", "e"]), (true, [])] = some RunExit.completed
    ∧ pollIterationFails 0 ["a", "b", "c", "d", "e"] 1 > 1 := by
  refine ⟨?_, ?_⟩ <;> decide

/-- Claim C2 (amended): the driver's poll loop exits with the non-zero
`sys.exit(1)` status exactly when some arrival at the loop's readiness
check finds the workers not all finished while the accumulated failure
count already exceeds `max_fails`; when a readiness check finds all
workers finished first, the loop falls through to the exit-0 completion
path even if the failure count exceeded the quota during its final
drain. -/
theorem claim_C2 {α : Type} (max_fails total_fails : Int)
    (trace : List (Bool × List α)) :
    driverPoll max_fails total_fails trace = some RunExit.maxFailsExit
      ↔ ExceedsBeforeReady max_fails total_fails trace :=
  driverPoll_maxFailsExit_iff max_fails trace total_fails

/-- A schema under which a single value can violate two constraints at
once: column `x` must be the string `"ok"` (enum) and at least five
characters long (minLength). -/
def c3_schema : JSchema :=
  { properties :=
      [("x", { jtype := JType.string, enumVals := some [JVal.s "ok"], minLength := some 5 })] }

/-- A record violating both the enum and the minLength constraint of
`c3_schema`. -/
def c3_record : JRecord := [("x", JVal.s "no")]

/-- Claim C3, counterexample: `c3_record` violates two schema constraints
(`enum` and `minLength`), yet the worker produces exactly one
ValidationReport for it, not two: `jsonschema.validate` raises only a
single ValidationError per record, so a record with k violated constraints
yields one report, not k. -/
theorem claim_C3_counterexample :
    (iter_errors (dropNullValues c3_record) c3_schema).length = 2
    ∧ (worker [c3_record] c3_schema 1 [] []).1.2.length = 1
    ∧ (worker [c3_record] c3_schema 1 [] []).1.2.length
        ≠ (iter_errors (dropNullValues c3_record) c3_schema).length := by
  refine ⟨?_, ?_, ?_⟩ <;> decide

/-- Claim C3 (amended): no exception escapes the worker's per-record
validation (the embedding of the loop is a total function), and every
record yields exactly one ValidationReport when it violates at least one
constraint — the single error raised by `validate` — and none otherwise:
the number of reports equals the number of failing records, not the number
of violated constraints. -/
theorem claim_C3 (records : List JRecord) (schema : JSchema) (start_row : Nat)
    (validation_error_queue : List ValidationReport) (row_progress_queue : List Int) :
    (worker records schema start_row validation_error_queue row_progress_queue).1.2.length
      = (records.filter
          (fun r => (jsonschemaValidate (dropNullValues r) schema).isSome)).length := by
  simpa [worker] using validateRecords_length schema start_row records 0

/-- Claim C4: the absolute start row `dispatch_workers` assigns to the
i-th dispatched chunk equals the global start row plus the sum of the true
lengths of all previously dispatched chunks. -/
theorem claim_C4 {α : Type} (start_row : Nat) (chunks : List (List α)) (i : Nat)
    (h : i < (dispatch_workers start_row chunks).length) :
    (dispatch_workers start_row chunks).get ⟨i, h⟩
      = start_row + ((chunks.take i).map List.length).sum :=
  dispatch_workers_get start_row chunks i h

/-- Claim C4 witness: chunks of sizes 3,3,3,1 (nominal chunk size 3 over
10 records) starting at row 1 get offsets 1,4,7,10; in particular the last
chunk's offset is 1 plus the lengths of the three previous chunks. -/
theorem claim_C4_witness :
    (3 < (dispatch_workers 1 [[1, 2, 3], [4, 5, 6], [7, 8, 9], [10]]).length)
    ∧ ((dispatch_workers 1 [[1, 2, 3], [4, 5, 6], [7, 8, 9], [10]]).get ⟨3, by decide⟩
        = 1 + (([[1, 2, 3], [4, 5, 6], [7, 8, 9], [10]].take 3).map List.length).sum)
    ∧ dispatch_workers 1 [[1, 2, 3], [4, 5, 6], [7, 8, 9], [10]] = [1, 4, 7, 10] :=
  ⟨by decide, claim_C4 1 [[1, 2, 3], [4, 5, 6], [7, 8, 9], [10]] 3 (by decide), by decide⟩

/-- Claim C5: chunking N ≥ 1 records into n ≥ 1 chunks in fixed
chunk-count mode yields chunks that concatenate back to the original
sequence, whose lengths sum to N, and every chunk except possibly the last
has length `ceil(N/n) = (N + n - 1) / n`. -/
theorem claim_C5 {α : Type} (records : List α) (n : Nat)
    (hN : 1 ≤ records.length) (hn : 1 ≤ n) :
    (((chunk_records records n).map (fun c => c.1)).flatten = records)
    ∧ ((((chunk_records records n).map (fun c => c.1)).map List.length).sum
        = records.length)
    ∧ (∀ (i : Nat) (h' : i < (chunk_records records n).length),
        i + 1 < (chunk_records records n).length →
        ((chunk_records records n).get ⟨i, h'⟩).1.length
          = (records.length + n - 1) / n) := by
  have hflat : ((chunk_records records n).map (fun c => c.1)).flatten = records := by
    rw [chunk_records_map_fst, chunkList_flatten]
  refine ⟨hflat, ?_, ?_⟩
  · have hcong := congrArg List.length hflat
    simpa [List.length_flatten] using hcong
  · intro i h' h
    have hlen : (chunk_records records n).length
        = (chunkList ((records.length + n - 1) / n) records).length := by
      rw [chunk_records, addOffsets_length]
    have h2 : i < (chunkList ((records.length + n - 1) / n) records).length := hlen ▸ h'
    have h3 : i + 1 < (chunkList ((records.length + n - 1) / n) records).length := hlen ▸ h
    have hfst : ((chunk_records records n).get ⟨i, h'⟩).1
        = (chunkList ((records.length + n - 1) / n) records).get ⟨i, h2⟩ :=
      addOffsets_get_fst _ 1 i h' h2
    rw [hfst]
    exact chunkList_get_length _ records i h2 h3

/-- Claim C5 witness: 10 records into 3 chunks gives sizes 4,4,2 and
concatenates back to the input; 10 records into 2 chunks gives sizes
5,5. -/
theorem claim_C5_witness :
    (1 ≤ ([1, 2, 3, 4, 5, 6, 7, 8, 9, 10] : List Nat).length) ∧ (1 ≤ 3)
    ∧ (((chunk_records ([1, 2, 3, 4, 5, 6, 7, 8, 9, 10] : List Nat) 3).map
          (fun c => c.1)).flatten = [1, 2, 3, 4, 5, 6, 7, 8, 9, 10])
    ∧ (((chunk_records ([1, 2, 3, 4, 5, 6, 7, 8, 9, 10] : List Nat) 3).map
          (fun c => c.1)).map List.length = [4, 4, 2])
    ∧ (((chunk_records ([1, 2, 3, 4, 5, 6, 7, 8, 9, 10] : List Nat) 2).map
          (fun c => c.1)).map List.length = [5, 5]) :=
  ⟨by decide, by decide,
    (claim_C5 [1, 2, 3, 4, 5, 6, 7, 8, 9, 10] 3 (by decide) (by decide)).1,
    by decide, by decide⟩

/-- Claim C6: when the optional `--chunk-size` flag is omitted,
`args.chunk_size` is `None` and `min(maximum_chunk_size(csv_rows,
processes), None)` raises `TypeError`, so the run crashes instead of
proceeding with a default of `rows / processes`; with the flag given the
effective chunk size is indeed the minimum of the requested size and
`floor(rows / processes)`. -/
theorem claim_C6 :
    main_chunk_size 10 1 none = Except.error PyError.typeError
    ∧ ∀ (csv_rows processes requested : Nat),
        main_chunk_size csv_rows processes (some requested)
          = Except.ok (min (maximum_chunk_size csv_rows processes) requested) :=
  ⟨rfl, fun _ _ _ => rfl⟩

/-- Claim C7, counterexample: with `start_row = 2` the loader yields the
very first data row ("row2", the data row at header-excluded index 1,
which is strictly before 2), refuting the header-excluded reading of
`start_row`: the code's indexing counts the header as row 1. -/
theorem claim_C7_counterexample :
    (records_chunk_loader 2 ["row2", "row3", "row4"] 100).flatten
      = ["row2", "row3", "row4"]
    ∧ (records_chunk_loader 2 ["row2", "row3", "row4"] 100).flatten
        ≠ ["row3", "row4"] := by
  refine ⟨?_, ?_⟩ <;> decide

/-- Claim C7 (amended): `start_row` is 1-indexed counting the header as
row 1; the header line (index 0) is never skipped — it is always consumed
for column names and typing — and the records produced are exactly the
data rows from file row `start_row` on, i.e. the first `start_row - 2`
data rows are skipped without being parsed as records. -/
theorem claim_C7 :
    (∀ s0 : Int, pandas_skiprows s0 0 = false)
    ∧ ∀ {α : Type} (start_row : Int) (dataRows : List α) (chunk_size : Nat),
        (records_chunk_loader start_row dataRows chunk_size).flatten
          = dataRows.drop (start_row - 2).toNat := by
  constructor
  · intro s0
    simp [pandas_skiprows]
  · intro α start_row dataRows chunk_size
    rw [records_chunk_loader, chunkList_flatten, loaderKeep_eq_drop _ _ 1 le_rfl]
    congr 1
    omega

/-- Claim C8: draining a progress channel is total and non-blocking: it
returns the sum of all currently buffered updates and consumes them
(leaving the buffer empty), and an empty channel yields 0 immediately. -/
theorem claim_C8 (progress_queue : List Int) :
    (get_row_progress_update progress_queue).1 = progress_queue.sum
    ∧ (get_row_progress_update progress_queue).2 = []
    ∧ (get_row_progress_update ([] : List Int)).1 = 0 :=
  ⟨by rw [get_row_progress_update_eq], by rw [get_row_progress_update_eq], rfl⟩

/-- Claim C9: the worker's validation is deterministic: on the same
records, schema and absolute start row it returns the same result and
emits the same reports and progress updates, independent of the ambient
state of the shared channels it writes to (and a fortiori of wall-clock
time and worker identity, which the computation never consults). -/
theorem claim_C9 (records : List JRecord) (schema : JSchema) (start_row : Nat)
    (errQ1 errQ2 : List ValidationReport) (progQ1 progQ2 : List Int) :
    (worker records schema start_row errQ1 progQ1).1
      = (worker records schema start_row errQ2 progQ2).1
    ∧ ((worker records schema start_row errQ1 progQ1).2.1).drop errQ1.length
        = ((worker records schema start_row errQ2 progQ2).2.1).drop errQ2.length
    ∧ ((worker records schema start_row errQ1 progQ1).2.2).drop progQ1.length
        = ((worker records schema start_row errQ2 progQ2).2.2).drop progQ2.length := by
  refine ⟨rfl, ?_, ?_⟩ <;> simp [worker]

/-- Claim C10: `print_validation_reports` returns the number of reports
drained from the failure channel — even those beyond the remaining print
quota that are discarded unprinted — and the driver's poll-loop accounting
`total_fails += fails` therefore increments the failure count used for the
early-exit decision by the drained count: early exit is decided on
failures observed, not failures printed. -/
theorem claim_C10 {α : Type} (failure_queue : List α) (total_fails max_fails : Int) :
    (print_validation_reports failure_queue total_fails max_fails).2
      = (failure_queue.length : Int)
    ∧ pollIterationFails total_fails failure_queue max_fails
      = total_fails + failure_queue.length := by
  refine ⟨print_validation_reports_snd _ _ _, ?_⟩
  rw [pollIterationFails, print_validation_reports_snd]

end ValidateCsv
